import Mathlib

/-!
Verification development for the satellite tracker (src/app.js).

The JavaScript source is shallowly embedded: JavaScript numbers are
modelled as exact rationals extended with the three non-finite values
(`NaN`, `Infinity`, `-Infinity`); JavaScript strings are Lean strings and
all string operations are carried out on their character lists; objects
produced by the KVN decoder are association lists from field names to
typed values, with assignment replacing an existing binding in place.
The ECMAScript built-ins `parseFloat` and `Number` (string coercion) are
modelled by executable parsers following the ECMAScript grammar for
decimal, hexadecimal, octal and binary literals.
-/

/-- A JavaScript number: an exact finite value or one of the three
non-finite IEEE values. -/
inductive JsNumber where
  | finite (q : ℚ)
  | nan
  | inf
  | ninf
deriving DecidableEq

/-- `isNaN` applied to an already-numeric value: true only on `NaN`
(in particular `isNaN(Infinity)` is `false`). -/
def JsNumber.isNaN : JsNumber → Bool
  | .nan => true
  | _ => false

/-- A JavaScript value as produced by the KVN decoder or a JSON parse:
number, string, boolean or null.  Absence of an object property
(`undefined`) is modelled by `Option.none` at the lookup level. -/
inductive JSValue where
  | num (v : JsNumber)
  | str (s : String)
  | bool (b : Bool)
  | null
deriving DecidableEq

/-- The characters matched by the JavaScript whitespace class `\s` and
trimmed by `String.prototype.trim` (restricted to the ASCII range that
can occur in the inputs handled here). -/
def jsWhitespace (c : Char) : Bool :=
  c = ' ' || c = '\t' || c = '\n' || c = '\r' || c = '\x0b' || c = '\x0c'

/-- `trim()` on a character list: drop leading and trailing whitespace. -/
def jsTrimChars (cs : List Char) : List Char :=
  ((cs.dropWhile jsWhitespace).reverse.dropWhile jsWhitespace).reverse

/-- JavaScript `String.prototype.trim`. -/
def jsTrim (s : String) : String := ⟨jsTrimChars s.data⟩

/-- JavaScript `String.prototype.startsWith`. -/
def startsWithStr (s p : String) : Bool := p.data.isPrefixOf s.data

/-- JavaScript `String.prototype.includes` for a single character. -/
def includesChar (s : String) (c : Char) : Bool := s.data.contains c

/-- JavaScript `String.prototype.includes` for a substring: the pattern
is a prefix of some suffix of the text. -/
def includesStr (s sub : String) : Bool :=
  s.data.tails.any (fun t => sub.data.isPrefixOf t)

/-- `split('\n')`: split a character list at every newline; a trailing
newline yields a trailing empty piece, exactly as in JavaScript. -/
def splitNL : List Char → List (List Char)
  | [] => [[]]
  | c :: rest =>
    let r := splitNL rest
    if c = '\n' then [] :: r
    else
      match r with
      | h :: t => (c :: h) :: t
      | [] => [[c]]

/-- `s.split('\n').map(l => l.trim()).filter(l => l.length > 0)` — the
line-splitting idiom shared by the KVN decoder and the format detector. -/
def splitLines (s : String) : List String :=
  (((splitNL s.data).map jsTrimChars).filter (fun cs => !cs.isEmpty)).map
    (fun cs => (⟨cs⟩ : String))

/-- Value of a list of decimal digits. -/
def digitsToNat (ds : List Char) : ℕ :=
  ds.foldl (fun a c => 10 * a + (c.toNat - 48)) 0

/-- Value of a digit in the given base (decimal plus hex letters),
or `none` when the character is not a digit of that base. -/
def digitValAt (base : ℕ) (c : Char) : Option ℕ :=
  let v : Option ℕ :=
    if c.isDigit then some (c.toNat - 48)
    else if 'a' ≤ c && c ≤ 'f' then some (c.toNat - 87)
    else if 'A' ≤ c && c ≤ 'F' then some (c.toNat - 55)
    else none
  match v with
  | some n => if n < base then some n else none
  | none => none

/-- Value of a digit string in the given base; `none` when some
character is not a digit of that base. -/
def radixNat (base : ℕ) (cs : List Char) : Option ℕ :=
  cs.foldl
    (fun acc c =>
      match acc, digitValAt base c with
      | some a, some d => some (base * a + d)
      | _, _ => none)
    (some 0)

/-- The finite number `sign · (ip.fp) · 10^ex` denoted by a parsed
decimal literal with integer part `ip`, fraction part `fp` and exponent
`ex`, built as a quotient of integers. -/
def decValue (neg : Bool) (ip fp : List Char) (ex : ℤ) : JsNumber :=
  let mantNum : ℤ := (digitsToNat ip * 10 ^ fp.length + digitsToNat fp : ℕ)
  let num : ℤ := if neg then -mantNum else mantNum
  match ex with
  | .ofNat e => .finite (mkRat (num * 10 ^ e) (10 ^ fp.length))
  | .negSucc e => .finite (mkRat num (10 ^ fp.length * 10 ^ (e + 1)))

/-- Parse an optional exponent part `[eE][+-]?digits` at the head of the
input.  When no well-formed exponent is present the input is returned
unchanged with exponent `0` (the way `parseFloat` stops before a bare
`e`). -/
def parseExp (cs : List Char) : ℤ × List Char :=
  match cs with
  | c :: rest =>
    if c = 'e' || c = 'E' then
      let sr : Bool × List Char :=
        match rest with
        | '+' :: r => (false, r)
        | '-' :: r => (true, r)
        | _ => (false, rest)
      let ds := sr.2.takeWhile Char.isDigit
      if ds.isEmpty then (0, c :: rest)
      else ((if sr.1 then -(digitsToNat ds : ℤ) else (digitsToNat ds : ℤ)),
            sr.2.dropWhile Char.isDigit)
    else (0, c :: rest)
  | [] => (0, [])

/-- ECMAScript `parseFloat` on a character list: skip leading
whitespace, optional sign, then the longest prefix that is `Infinity`
or a decimal literal; `NaN` when no digits can be consumed. -/
def parseFloatChars (cs0 : List Char) : JsNumber :=
  let cs := cs0.dropWhile jsWhitespace
  let sr : Bool × List Char :=
    match cs with
    | '+' :: r => (false, r)
    | '-' :: r => (true, r)
    | _ => (false, cs)
  if ("Infinity".data).isPrefixOf sr.2 then (if sr.1 then .ninf else .inf)
  else
    let ip := sr.2.takeWhile Char.isDigit
    let cs2 := sr.2.dropWhile Char.isDigit
    let fr : List Char × List Char :=
      match cs2 with
      | '.' :: r => (r.takeWhile Char.isDigit, r.dropWhile Char.isDigit)
      | _ => ([], cs2)
    if ip.isEmpty && fr.1.isEmpty then .nan
    else decValue sr.1 ip fr.1 (parseExp fr.2).1

/-- ECMAScript `parseFloat` on a string. -/
def parseFloatStr (s : String) : JsNumber := parseFloatChars s.data

/-- The decimal-literal part of ECMAScript string-to-number coercion:
optional sign, then `Infinity` or a full decimal literal consuming the
whole input; `NaN` otherwise. -/
def numberDecChars (cs : List Char) : JsNumber :=
  let sr : Bool × List Char :=
    match cs with
    | '+' :: r => (false, r)
    | '-' :: r => (true, r)
    | _ => (false, cs)
  if sr.2 = "Infinity".data then (if sr.1 then .ninf else .inf)
  else
    let ip := sr.2.takeWhile Char.isDigit
    let cs2 := sr.2.dropWhile Char.isDigit
    let fr : List Char × List Char :=
      match cs2 with
      | '.' :: r => (r.takeWhile Char.isDigit, r.dropWhile Char.isDigit)
      | _ => ([], cs2)
    if ip.isEmpty && fr.1.isEmpty then .nan
    else
      let er := parseExp fr.2
      if er.2.isEmpty then decValue sr.1 ip fr.1 er.1 else .nan

/-- ECMAScript `Number` applied to a string (the coercion performed by
`isNaN(value)` when `value` is a string): trim, empty means `0`,
otherwise a non-decimal integer literal (`0x`/`0o`/`0b`) or a signed
decimal literal / `Infinity` matching the entire remaining text. -/
def numberOfString (s : String) : JsNumber :=
  let cs := jsTrimChars s.data
  if cs.isEmpty then .finite 0
  else
    match cs with
    | '0' :: c :: rest =>
      if c = 'x' || c = 'X' then
        if rest.isEmpty then .nan
        else match radixNat 16 rest with
          | some n => .finite n
          | none => .nan
      else if c = 'o' || c = 'O' then
        if rest.isEmpty then .nan
        else match radixNat 8 rest with
          | some n => .finite n
          | none => .nan
      else if c = 'b' || c = 'B' then
        if rest.isEmpty then .nan
        else match radixNat 2 rest with
          | some n => .finite n
          | none => .nan
      else numberDecChars cs
    | _ => numberDecChars cs

/-- `parseFloat` applied to an arbitrary value, via its string
conversion: a number converts to a string that re-parses to itself,
`true`/`false`/`null` stringify to non-numeric text and give `NaN`. -/
def jsParseFloat : JSValue → JsNumber
  | .num v => v
  | .str s => parseFloatStr s
  | .bool _ => .nan
  | .null => .nan

/-- The double-quote character. -/
def dquote : Char := Char.ofNat 34

/-- The single-quote character. -/
def squote : Char := Char.ofNat 39

/-- `value.startsWith(q) && value.endsWith(q)` for a quote character. -/
def quotedWith (cs : List Char) (q : Char) : Bool :=
  match cs with
  | c :: _ => c = q && cs.getLast? = some q
  | [] => false

/-- The quote-removal idiom of the KVN decoder: when the value both
starts and ends with the same kind of quote, `value.substring(1,
value.length - 1)` is taken.  For a one-character value the JavaScript
`substring` swaps its arguments and returns the string unchanged, which
the length guard reproduces. -/
def stripQuotes (v : String) : String :=
  let cs := v.data
  if quotedWith cs dquote || quotedWith cs squote then
    if 2 ≤ cs.length then ⟨(cs.drop 1).dropLast⟩ else v
  else v

/-- The regular expression `^([A-Z_][A-Z0-9_]*)\s*=\s*(.*?)\s*$` of the
KVN decoder, applied to one (already trimmed) line: returns the key and
the value (leading and trailing whitespace around the value removed), or
`none` when the line does not have the `KEY = value` shape.  Since the
key character class, whitespace and `=` are pairwise disjoint, the
greedy match below is exactly the regex semantics. -/
def kvnLineMatch (line : String) : Option (String × String) :=
  match line.data with
  | c :: rest =>
    if ('A' ≤ c && c ≤ 'Z') || c = '_' then
      let keyChar : Char → Bool := fun d =>
        ('A' ≤ d && d ≤ 'Z') || d.isDigit || d = '_'
      let ks := rest.takeWhile keyChar
      let afterKey := (rest.dropWhile keyChar).dropWhile jsWhitespace
      match afterKey with
      | '=' :: r =>
        let vchars := r.dropWhile jsWhitespace
        some ((⟨c :: ks⟩ : String),
              (⟨(vchars.reverse.dropWhile jsWhitespace).reverse⟩ : String))
      | _ => none
    else none
  | [] => none

/-- The fixed numeric-field set of the KVN decoder. -/
def numericFields : List String :=
  ["NORAD_CAT_ID", "MEAN_MOTION", "ECCENTRICITY", "INCLINATION", "RA_OF_ASC_NODE",
   "ARG_OF_PERICENTER", "MEAN_ANOMALY", "ELEMENT_SET_NO", "REV_AT_EPOCH", "BSTAR",
   "MEAN_MOTION_DOT", "MEAN_MOTION_DDOT", "EPHEMERIS_TYPE"]

/-- The warning condition tested by the KVN decoder on a successfully
parsed `ECCENTRICITY` value: `numValue < 0 || numValue >= 1`. -/
def eccWarnCondition (q : ℚ) : Bool := decide (q < 0) || decide (1 ≤ q)

/-- The type-coercion chain of the KVN decoder for one matched
`key = value` line.  The `EPOCH` branch additionally date-parses the
value to decide a console warning, which does not affect the stored
value and is not modelled.  In the generic numeric branch the source's
integer/decimal normalization (`toFixed`/`parseInt` on the already
parsed number) is value-preserving for every number whose string form
round-trips, so the parsed number is stored unchanged. -/
def coerceKVN (key value : String) : JSValue :=
  if value = "true" then .bool true
  else if value = "false" then .bool false
  else if value = "null" then .null
  else if key = "EPOCH" then .str (stripQuotes value)
  else if numericFields.contains key then
    match parseFloatStr value with
    | .nan => .str (stripQuotes value)
    | n => .num n
  else if !(numberOfString value).isNaN && !(parseFloatStr value).isNaN then
    match parseFloatStr value with
    | .nan => .str value
    | n => .num n
  else .str (stripQuotes value)

/-- A decoded OMM object: an association list from field names to typed
values.  A name absent from the list is an `undefined` property. -/
abbrev OmmObject := List (String × JSValue)

/-- Property read `obj[key]`: the first binding of the key, `none` for
`undefined`. -/
def getField (m : OmmObject) (k : String) : Option JSValue :=
  (m.find? (fun p => p.1 == k)).map (fun p => p.2)

/-- Property write `obj[key] = v`: replace an existing binding in place,
otherwise append a new one. -/
def setKey (m : OmmObject) (k : String) (v : JSValue) : OmmObject :=
  if m.any (fun p => p.1 == k) then
    m.map (fun p => if p.1 == k then (k, v) else p)
  else m ++ [(k, v)]

/-- One iteration of the KVN decoding loop: a line matching the
`KEY = value` regex assigns the coerced value, any other line is
silently skipped. -/
def kvnStep (m : OmmObject) (line : String) : OmmObject :=
  match kvnLineMatch line with
  | some kv => setKey m kv.1 (coerceKVN kv.1 kv.2)
  | none => m

/-- `parseOMMKVN`: split into trimmed non-blank lines and run the
decoding loop over an initially empty object. -/
def parseOMMKVN (s : String) : OmmObject :=
  (splitLines s).foldl kvnStep []

/-- The key/value pairs extracted by the regex from the lines of a KVN
text, in order. -/
def kvnEntries (s : String) : List (String × String) :=
  (splitLines s).filterMap kvnLineMatch

/-- The required OMM fields checked by `validateOMM`. -/
def requiredFields : List String :=
  ["OBJECT_NAME", "NORAD_CAT_ID", "EPOCH", "MEAN_MOTION", "ECCENTRICITY",
   "INCLINATION", "RA_OF_ASC_NODE", "ARG_OF_PERICENTER", "MEAN_ANOMALY"]

/-- The six fields whose `parseFloat` result is tested by `validateOMM`. -/
def sixNumericChecked : List String :=
  ["MEAN_MOTION", "ECCENTRICITY", "INCLINATION", "RA_OF_ASC_NODE",
   "ARG_OF_PERICENTER", "MEAN_ANOMALY"]

/-- The five of those fields other than `ECCENTRICITY`. -/
def fiveOtherNumeric : List String :=
  ["MEAN_MOTION", "INCLINATION", "RA_OF_ASC_NODE", "ARG_OF_PERICENTER",
   "MEAN_ANOMALY"]

/-- `typeof v === 'number'` (true also for `NaN` and `±Infinity`);
false for an absent property. -/
def isNumType : Option JSValue → Bool
  | some (.num _) => true
  | _ => false

/-- `typeof v === 'string'`; false for an absent property. -/
def isStrType : Option JSValue → Bool
  | some (.str _) => true
  | _ => false

/-- `parseFloat(obj[k])`; `parseFloat(undefined)` is `NaN`. -/
def parseFloatField (m : OmmObject) (k : String) : JsNumber :=
  match getField m k with
  | some v => jsParseFloat v
  | none => .nan

/-- `validateOMM` on an already decoded object (the string entry point
first decodes KVN text with `parseOMMKVN` or JSON text with the external
`JSON.parse`, a parse failure being caught and turned into `false`):
required fields must not be `undefined`, `NORAD_CAT_ID` must be number-
or string-typed, `EPOCH` must be string-typed, and `parseFloat` of the
six element fields must not be `NaN`. -/
def validateOMM (m : OmmObject) : Bool :=
  if requiredFields.any (fun f => (getField m f).isNone) then false
  else if !(isNumType (getField m "NORAD_CAT_ID") || isStrType (getField m "NORAD_CAT_ID")) then false
  else if !(isStrType (getField m "EPOCH")) then false
  else if sixNumericChecked.any (fun f => (parseFloatField m f).isNaN) then false
  else true

/-- The capture of `^1 (\d{4,5})` (resp. `^2 (\d{4,5})`) on a trimmed
TLE line: the marker digit, a space, then greedily up to five decimal
digits, at least four being required. -/
def tleCatalog (marker : Char) (line : String) : Option String :=
  match line.data with
  | c :: ' ' :: rest =>
    if c = marker then
      let ds := rest.takeWhile Char.isDigit
      if 4 ≤ ds.length then some (⟨ds.take 5⟩ : String) else none
    else none
  | _ => none

/-- `validateTLE`: length check on the raw lines, leading-marker check
on the trimmed lines, catalog-number extraction on the trimmed lines,
and equality of the two extracted catalog numbers. -/
def validateTLE (l1 l2 : String) : Bool :=
  if l1.length < 68 || l2.length < 68 then false
  else if !(startsWithStr (jsTrim l1) "1 ") || !(startsWithStr (jsTrim l2) "2 ") then false
  else
    match tleCatalog '1' (jsTrim l1), tleCatalog '2' (jsTrim l2) with
    | some n1, some n2 => n1 == n2
    | _, _ => false

/-- Outcome of the format classification performed by the submit
handler. -/
inductive DetectResult where
  | emptyInput
  | tlePair (l1 l2 : String)
  | tleError
  | omm
  | unrecognized
deriving DecidableEq

/-- The format detection of the submit handler: trim the input, reject
empty text, split into trimmed non-blank lines; when at least two lines
exist, the first line starts with `"1 "` and some line starts with
`"2 "`, take the TLE branch (whose inner first case always applies,
making the remaining cases, including the satellite-name case,
unreachable); otherwise text containing a brace or the token
`OBJECT_NAME` is OMM; otherwise the input is unrecognized. -/
def detectFormat (input : String) : DetectResult :=
  let t := jsTrim input
  if t.data.isEmpty then .emptyInput
  else
    let lines := splitLines t
    if decide (2 ≤ lines.length) && startsWithStr (lines.getD 0 "") "1 " &&
        lines.any (fun l => startsWithStr l "2 ") then
      if startsWithStr (lines.getD 0 "") "1 " then
        .tlePair (lines.getD 0 "") (lines.getD 1 "")
      else if decide (3 ≤ lines.length) && startsWithStr (lines.getD 1 "") "1 " &&
          startsWithStr (lines.getD 2 "") "2 " then
        .tlePair (lines.getD 1 "") (lines.getD 2 "")
      else if decide (2 ≤ lines.length) && startsWithStr (lines.getD 1 "") "2 " then
        .tlePair (lines.getD 0 "") (lines.getD 1 "")
      else .tleError
    else if includesChar t '\x7b' || includesStr t "OBJECT_NAME" then .omm
    else .unrecognized

/-- An inertial position as returned by the propagation collaborator. -/
structure EciPosition where
  x : JsNumber
  y : JsNumber
  z : JsNumber
deriving DecidableEq

/-- What `satellite.propagate` handed back, as seen by the guard in
`calculateSatellitePosition`: `null`, an object with a falsy `position`,
or a position vector. -/
inductive PropagationOutcome where
  | nullResult
  | noPosition
  | position (p : EciPosition)
deriving DecidableEq

/-- The propagation-result guard of `calculateSatellitePosition`: a
`null` result throws, a falsy position throws, and a position with some
`NaN` coordinate throws; otherwise the position flows on into the frame
transforms. -/
def propagationGate : PropagationOutcome → Except String EciPosition
  | .nullResult => .error "Propagation failed - null result returned"
  | .noPosition => .error "Propagation failed - invalid position returned"
  | .position p =>
    if p.x.isNaN || p.y.isNaN || p.z.isNaN then
      .error "Propagation failed - invalid position returned"
    else .ok p

/-- Whether the guard threw. -/
def gateFails (o : PropagationOutcome) : Bool :=
  match propagationGate o with
  | .error _ => true
  | .ok _ => false

/-- State of the live-update machinery created by `displayResults`:
whether the toggle button is enabled (it is disabled when a custom time
was pinned at entry), the `isLiveUpdating` flag, whether an interval
timer is armed, and whether `selectedCustomTime` is non-null. -/
structure SchedState where
  enabled : Bool
  isLiveUpdating : Bool
  armed : Bool
  fixedTime : Bool
deriving DecidableEq

/-- Events acting on that state: a click on the toggle button, an
interval-timer fire, and setting or clearing the custom time. -/
inductive SchedEvent where
  | toggleClick
  | tick
  | selectFixed
  | clearFixed
deriving DecidableEq

/-- One event step; the boolean records whether this event performed a
recompute (`updatePosition`).  The toggle branch is the click handler of
`displayResults`: while live-updating a click clears the interval and
drops the flag; otherwise, only when no custom time is selected, it
re-arms the interval, raises the flag and recomputes immediately; a
click with a custom time selected does nothing.  A timer fire recomputes
exactly when a timer is armed, and the custom-time buttons only change
the time selector. -/
def schedStep (s : SchedState) (e : SchedEvent) : SchedState × Bool :=
  match e with
  | .tick => if s.armed then (s, true) else (s, false)
  | .selectFixed => ({ s with fixedTime := true }, false)
  | .clearFixed => ({ s with fixedTime := false }, false)
  | .toggleClick =>
    if !s.enabled then (s, false)
    else if s.isLiveUpdating then
      ({ s with armed := false, isLiveUpdating := false }, false)
    else if !s.fixedTime then
      ({ s with armed := true, isLiveUpdating := true }, true)
    else (s, false)

/-- Run a sequence of events, counting the recomputes performed. -/
def schedRun (s : SchedState) : List SchedEvent → SchedState × ℕ
  | [] => (s, 0)
  | e :: evs =>
    let sr := schedStep s e
    let rest := schedRun sr.1 evs
    (rest.1, (if sr.2 then 1 else 0) + rest.2)

/-- The scheduler is paused with no pending timer. -/
def pausedB (s : SchedState) : Bool := !s.isLiveUpdating && !s.armed

/-- The event is a successful `start()`: a click on the enabled toggle
while not live-updating and with no custom time selected. -/
def isStartB (s : SchedState) (e : SchedEvent) : Bool :=
  (match e with | .toggleClick => true | _ => false) &&
    s.enabled && !s.isLiveUpdating && !s.fixedTime

/-- No successful `start()` occurs anywhere along the event sequence. -/
def noStartB : SchedState → List SchedEvent → Bool
  | _, [] => true
  | s, e :: evs => !isStartB s e && noStartB (schedStep s e).1 evs

/-- C1: the TLE validator accepts exactly when both raw lines have
length at least 68, each trimmed line carries its leading marker, the
4–5-digit catalog number is extractable from each trimmed line, and the
two extracted catalog numbers are equal; every other pair is rejected. -/
theorem validateTLE_iff (l1 l2 : String) :
    validateTLE l1 l2 = true ↔
      (68 ≤ l1.length ∧ 68 ≤ l2.length ∧
       startsWithStr (jsTrim l1) "1 " = true ∧ startsWithStr (jsTrim l2) "2 " = true ∧
       ∃ n, tleCatalog '1' (jsTrim l1) = some n ∧ tleCatalog '2' (jsTrim l2) = some n) := by
  unfold validateTLE
  split_ifs with hlen hmark
  · simp only [Bool.false_eq_true, false_iff, not_and]
    intro ha hb
    simp only [Bool.or_eq_true, decide_eq_true_eq] at hlen
    omega
  · simp only [Bool.false_eq_true, false_iff, not_and]
    intro _ _ hs1 hs2
    simp only [Bool.or_eq_true, Bool.not_eq_true'] at hmark
    rcases hmark with h | h <;> simp_all
  · simp only [Bool.or_eq_true, decide_eq_true_eq, not_or, Nat.not_lt] at hlen
    simp only [Bool.or_eq_true, Bool.not_eq_true', not_or, Bool.not_eq_false] at hmark
    rcases hc1 : tleCatalog '1' (jsTrim l1) with _ | n1 <;>
      rcases hc2 : tleCatalog '2' (jsTrim l2) with _ | n2
    · simp [hlen, hmark, hc1, hc2]
    · simp [hlen, hmark, hc1, hc2]
    · simp [hlen, hmark, hc1, hc2]
    · simp only [beq_iff_eq]
      constructor
      · rintro rfl
        exact ⟨hlen.1, hlen.2, hmark.1, hmark.2, n1, rfl, rfl⟩
      · rintro ⟨-, -, -, -, n, hn1, hn2⟩
        rw [Option.some.injEq] at hn1 hn2
        rw [hn1, hn2]

/-- Witness for `validateTLE_iff` at a concrete ISS TLE pair. -/
theorem validateTLE_iff_witness :
    validateTLE
      "1 25544U 98067A   24060.50000000  .00016717  00000+0  10270-3 0  9005"
      "2 25544  51.6400 208.9163 0006317  69.9862  25.2906 15.49390400434153" = true :=
  (validateTLE_iff _ _).mpr
    ⟨by decide, by decide, by decide, by decide, ⟨"25544", by decide, by decide⟩⟩

/-- C2 fails on the code: the detector's outer condition requires the
FIRST non-blank line to start with `"1 "`, so input led by a satellite
name falls through to the OMM test and then to `unrecognized` — even
though the very same two element lines are a valid TLE pair and are
classified as TLE when the name line is removed.  The sub-branch of the
source meant for a leading name line is unreachable. -/
theorem tle_name_line_unrecognized :
    detectFormat
      ("ISS (ZARYA)\n1 25544U 98067A   24060.50000000  .00016717  00000+0  10270-3 0  9005\n2 25544  51.6400 208.9163 0006317  69.9862  25.2906 15.49390400434153")
      = DetectResult.unrecognized ∧
    validateTLE
      "1 25544U 98067A   24060.50000000  .00016717  00000+0  10270-3 0  9005"
      "2 25544  51.6400 208.9163 0006317  69.9862  25.2906 15.49390400434153" = true ∧
    detectFormat
      ("1 25544U 98067A   24060.50000000  .00016717  00000+0  10270-3 0  9005\n2 25544  51.6400 208.9163 0006317  69.9862  25.2906 15.49390400434153")
      = DetectResult.tlePair
          "1 25544U 98067A   24060.50000000  .00016717  00000+0  10270-3 0  9005"
          "2 25544  51.6400 208.9163 0006317  69.9862  25.2906 15.49390400434153" := by
  decide

/-- The C3 claim as written fails on the code: a position with an
`Infinity` coordinate passes the guard (JavaScript `isNaN(Infinity)` is
`false`) and a `PositionResult` is produced rather than an error. -/
theorem infinity_position_accepted :
    propagationGate (.position ⟨.inf, .finite 0, .finite 0⟩) =
      .ok ⟨.inf, .finite 0, .finite 0⟩ := rfl

/-- C3 (amended): the guard in `calculateSatellitePosition` throws
exactly when propagation returned `null`, when the result carries no
position, or when some coordinate is `NaN`; non-finite `Infinity`
coordinates are not detected. -/
theorem propagationGate_fails_iff (o : PropagationOutcome) :
    gateFails o = true ↔
      (o = .nullResult ∨ o = .noPosition ∨
       ∃ p, o = .position p ∧
         (p.x.isNaN = true ∨ p.y.isNaN = true ∨ p.z.isNaN = true)) := by
  cases o with
  | nullResult => simp [gateFails, propagationGate]
  | noPosition => simp [gateFails, propagationGate]
  | position p =>
    constructor
    · intro hg
      refine Or.inr (Or.inr ⟨p, rfl, ?_⟩)
      cases h : (p.x.isNaN || p.y.isNaN || p.z.isNaN) with
      | false =>
        exfalso
        simp only [gateFails, propagationGate, h] at hg
        simp at hg
      | true => simpa [Bool.or_eq_true, or_assoc] using h
    · rintro (h | h | ⟨p2, hp2, hnan⟩)
      · cases h
      · cases h
      · injection hp2 with hpe
        subst hpe
        have hcond : (p.x.isNaN || p.y.isNaN || p.z.isNaN) = true := by
          rcases hnan with h | h | h <;> simp [h]
        simp [gateFails, propagationGate, hcond]

/-- Witness for `propagationGate_fails_iff`: the guard throws on a
`null` propagation result. -/
theorem propagationGate_fails_iff_witness : gateFails .nullResult = true :=
  (propagationGate_fails_iff _).mpr (Or.inl rfl)

/-- Characterization of `validateOMM`: it returns `true` exactly when
the four checks of the source pass.  Shared by the validator theorems
below. -/
theorem validateOMM_char (m : OmmObject) :
    validateOMM m = true ↔
      ((∀ f ∈ requiredFields, (getField m f).isNone = false) ∧
       (isNumType (getField m "NORAD_CAT_ID") = true ∨
         isStrType (getField m "NORAD_CAT_ID") = true) ∧
       isStrType (getField m "EPOCH") = true ∧
       (∀ f ∈ sixNumericChecked, (parseFloatField m f).isNaN = false)) := by
  unfold validateOMM
  split_ifs with h1 h2 h3 h4
  · simp only [Bool.false_eq_true, false_iff, not_and]
    intro hreq
    exfalso
    simp only [List.any_eq_true] at h1
    obtain ⟨f, hf, hN⟩ := h1
    rw [hreq f hf] at hN
    exact Bool.noConfusion hN
  · simp only [Bool.false_eq_true, false_iff, not_and]
    intro _ hB
    exfalso
    simp only [Bool.not_eq_true'] at h2
    rcases hB with hB | hB <;> rw [hB] at h2 <;> simp at h2
  · simp only [Bool.false_eq_true, false_iff, not_and]
    intro _ _ hC
    exfalso
    rw [hC] at h3
    simp at h3
  · simp only [Bool.false_eq_true, false_iff, not_and]
    intro _ _ _ hsix
    exfalso
    simp only [List.any_eq_true] at h4
    obtain ⟨f, hf, hN⟩ := h4
    rw [hsix f hf] at hN
    exact Bool.noConfusion hN
  · refine iff_of_true rfl ⟨?_, ?_, ?_, ?_⟩
    · intro f hf
      cases hIs : (getField m f).isNone with
      | false => rfl
      | true => exact absurd (List.any_eq_true.mpr ⟨f, hf, hIs⟩) h1
    · cases hIs : (isNumType (getField m "NORAD_CAT_ID") ||
          isStrType (getField m "NORAD_CAT_ID")) with
      | true => simpa using hIs
      | false => exact absurd ((Bool.not_eq_true' _).mpr hIs) h2
    · cases hIs : isStrType (getField m "EPOCH") with
      | true => rfl
      | false => exact absurd ((Bool.not_eq_true' _).mpr hIs) h3
    · intro f hf
      cases hIs : (parseFloatField m f).isNaN with
      | false => rfl
      | true => exact absurd (List.any_eq_true.mpr ⟨f, hf, hIs⟩) h4

/-- `validateOMM` accepts when all four checks hold. -/
theorem validateOMM_true_of (m : OmmObject)
    (h1 : ∀ f ∈ requiredFields, (getField m f).isNone = false)
    (h2 : isNumType (getField m "NORAD_CAT_ID") = true ∨
      isStrType (getField m "NORAD_CAT_ID") = true)
    (h3 : isStrType (getField m "EPOCH") = true)
    (h4 : ∀ f ∈ sixNumericChecked, (parseFloatField m f).isNaN = false) :
    validateOMM m = true :=
  (validateOMM_char m).mpr ⟨h1, h2, h3, h4⟩

/-- An OMM record, valid in every other respect, whose `MEAN_MOTION`
field holds the string `"Infinity"`. -/
def infinityOmm : OmmObject :=
  [("OBJECT_NAME", JSValue.str "ISS (ZARYA)"),
   ("NORAD_CAT_ID", JSValue.num (JsNumber.finite 25544)),
   ("EPOCH", JSValue.str "2024-02-29T12:00:00"),
   ("MEAN_MOTION", JSValue.str "Infinity"),
   ("ECCENTRICITY", JSValue.num (JsNumber.finite (mkRat 315 1000000))),
   ("INCLINATION", JSValue.num (JsNumber.finite (mkRat 5164 100))),
   ("RA_OF_ASC_NODE", JSValue.num (JsNumber.finite (mkRat 2089 10))),
   ("ARG_OF_PERICENTER", JSValue.num (JsNumber.finite (mkRat 6998 100))),
   ("MEAN_ANOMALY", JSValue.num (JsNumber.finite (mkRat 2529 100)))]

/-- The C5 claim as written fails on the code: the `MEAN_MOTION` value
parses to `Infinity`, which is not a finite number, yet `validateOMM`
accepts the record, because the check is `isNaN(parseFloat(v))` and
`isNaN(Infinity)` is `false`. -/
theorem validateOMM_accepts_infinity :
    jsParseFloat (JSValue.str "Infinity") = JsNumber.inf ∧
    validateOMM infinityOmm = true := by decide

/-- C5 (amended): `validateOMM` rejects exactly when a required field is
absent, `NORAD_CAT_ID` is neither number- nor string-typed, `EPOCH` is
not a string, or one of the six element fields parses to `NaN`; a value
parsing to `Infinity` is accepted, and the function is total (the source
catches parse exceptions and returns `false`). -/
theorem validateOMM_amended_iff (m : OmmObject) :
    validateOMM m = true ↔
      ((∀ f ∈ requiredFields, (getField m f).isNone = false) ∧
       (isNumType (getField m "NORAD_CAT_ID") = true ∨
         isStrType (getField m "NORAD_CAT_ID") = true) ∧
       isStrType (getField m "EPOCH") = true ∧
       (∀ f ∈ sixNumericChecked, (parseFloatField m f).isNaN = false)) :=
  validateOMM_char m

/-- Witness for `validateOMM_amended_iff`: the record with the
`Infinity` mean motion satisfies the four conditions, hence validates. -/
theorem validateOMM_amended_iff_witness : validateOMM infinityOmm = true :=
  (validateOMM_amended_iff infinityOmm).mpr (by decide)

/-- C6: an `ECCENTRICITY` outside `[0,1)` — negative or at least 1 —
does not cause rejection: `validateOMM` still accepts a record that is
valid in every other respect, and the KVN decoder keeps such a parsed
value in the record, merely satisfying the console-warning condition
`numValue < 0 || numValue >= 1`. -/
theorem ecc_out_of_range_tolerated (m : OmmObject) (q q2 : ℚ) (v : String)
    (hreq : ∀ f ∈ requiredFields, (getField m f).isNone = false)
    (hnorad : isNumType (getField m "NORAD_CAT_ID") = true ∨
      isStrType (getField m "NORAD_CAT_ID") = true)
    (hepoch : isStrType (getField m "EPOCH") = true)
    (hfive : ∀ f ∈ fiveOtherNumeric, (parseFloatField m f).isNaN = false)
    (hecc : getField m "ECCENTRICITY" = some (JSValue.num (JsNumber.finite q)))
    (_hq : q < 0 ∨ 1 ≤ q)
    (hpf : parseFloatStr v = JsNumber.finite q2)
    (hq2 : q2 < 0 ∨ 1 ≤ q2) :
    validateOMM m = true ∧
    coerceKVN "ECCENTRICITY" v = JSValue.num (JsNumber.finite q2) ∧
    eccWarnCondition q2 = true := by
  refine ⟨?_, ?_, ?_⟩
  · refine validateOMM_true_of m hreq hnorad hepoch ?_
    intro f hf
    fin_cases hf <;>
      first
        | exact hfive _ (by decide)
        | simp [parseFloatField, hecc, jsParseFloat, JsNumber.isNaN]
  · have hvt : ¬(v = "true") := by
      rintro rfl
      rw [show parseFloatStr "true" = JsNumber.nan by decide] at hpf
      exact JsNumber.noConfusion hpf
    have hvf : ¬(v = "false") := by
      rintro rfl
      rw [show parseFloatStr "false" = JsNumber.nan by decide] at hpf
      exact JsNumber.noConfusion hpf
    have hvn : ¬(v = "null") := by
      rintro rfl
      rw [show parseFloatStr "null" = JsNumber.nan by decide] at hpf
      exact JsNumber.noConfusion hpf
    unfold coerceKVN
    rw [if_neg hvt, if_neg hvf, if_neg hvn,
        if_neg (show ¬("ECCENTRICITY" = "EPOCH") by decide),
        if_pos (show (numericFields.contains "ECCENTRICITY") = true by decide),
        hpf]
  · simp only [eccWarnCondition, Bool.or_eq_true, decide_eq_true_eq]
    exact hq2

/-- An OMM record, valid in every other respect, whose `ECCENTRICITY`
is the out-of-range value `1.5`. -/
def eccBigOmm : OmmObject :=
  [("OBJECT_NAME", JSValue.str "ISS (ZARYA)"),
   ("NORAD_CAT_ID", JSValue.num (JsNumber.finite 25544)),
   ("EPOCH", JSValue.str "2024-02-29T12:00:00"),
   ("MEAN_MOTION", JSValue.num (JsNumber.finite (mkRat 1549 100))),
   ("ECCENTRICITY", JSValue.num (JsNumber.finite (mkRat 3 2))),
   ("INCLINATION", JSValue.num (JsNumber.finite (mkRat 5164 100))),
   ("RA_OF_ASC_NODE", JSValue.num (JsNumber.finite (mkRat 2089 10))),
   ("ARG_OF_PERICENTER", JSValue.num (JsNumber.finite (mkRat 6998 100))),
   ("MEAN_ANOMALY", JSValue.num (JsNumber.finite (mkRat 2529 100)))]

/-- Witness for `ecc_out_of_range_tolerated` at eccentricity `1.5`. -/
theorem ecc_out_of_range_tolerated_witness :
    validateOMM eccBigOmm = true ∧
    coerceKVN "ECCENTRICITY" "1.5" = JSValue.num (JsNumber.finite (mkRat 3 2)) ∧
    eccWarnCondition (mkRat 3 2) = true :=
  ecc_out_of_range_tolerated eccBigOmm (mkRat 3 2) (mkRat 3 2) "1.5"
    (by decide) (by decide) (by decide) (by decide) (by decide) (by decide)
    (by decide) (by decide)

/-- C10: the required-field loop only tests `=== undefined` and only
`NORAD_CAT_ID`, `EPOCH` and the six numeric fields get further checks,
so a record whose `OBJECT_NAME` is `null` is accepted. -/
theorem objectName_null_accepted (m : OmmObject)
    (_hnull : getField m "OBJECT_NAME" = some JSValue.null)
    (hreq : ∀ f ∈ requiredFields, (getField m f).isNone = false)
    (hnorad : isNumType (getField m "NORAD_CAT_ID") = true ∨
      isStrType (getField m "NORAD_CAT_ID") = true)
    (hepoch : isStrType (getField m "EPOCH") = true)
    (hsix : ∀ f ∈ sixNumericChecked, (parseFloatField m f).isNaN = false) :
    validateOMM m = true :=
  validateOMM_true_of m hreq hnorad hepoch hsix

/-- An OMM record whose `OBJECT_NAME` is `null` and which is valid in
every other respect. -/
def nullNameOmm : OmmObject :=
  [("OBJECT_NAME", JSValue.null),
   ("NORAD_CAT_ID", JSValue.num (JsNumber.finite 25544)),
   ("EPOCH", JSValue.str "2024-02-29T12:00:00"),
   ("MEAN_MOTION", JSValue.num (JsNumber.finite (mkRat 1549 100))),
   ("ECCENTRICITY", JSValue.num (JsNumber.finite (mkRat 315 1000000))),
   ("INCLINATION", JSValue.num (JsNumber.finite (mkRat 5164 100))),
   ("RA_OF_ASC_NODE", JSValue.num (JsNumber.finite (mkRat 2089 10))),
   ("ARG_OF_PERICENTER", JSValue.num (JsNumber.finite (mkRat 6998 100))),
   ("MEAN_ANOMALY", JSValue.num (JsNumber.finite (mkRat 2529 100)))]

/-- Witness for `objectName_null_accepted`. -/
theorem objectName_null_accepted_witness : validateOMM nullNameOmm = true :=
  objectName_null_accepted nullNameOmm (by decide) (by decide) (by decide)
    (by decide) (by decide)

/-- C7: the KVN coercion policy on two concrete lines — a numeric-set
key is parsed as a floating-point number, and a non-numeric value of an
ordinary key is kept as a quote-free string. -/
theorem kvn_coercion_examples :
    getField (parseOMMKVN "ECCENTRICITY = 0.000315") "ECCENTRICITY" =
      some (JSValue.num (JsNumber.finite (mkRat 315 1000000))) ∧
    getField (parseOMMKVN "OBJECT_NAME = ISS (ZARYA)") "OBJECT_NAME" =
      some (JSValue.str "ISS (ZARYA)") := by
  decide

/-- Replacing the binding of `k` makes `k` look up the new value. -/
theorem find_map_replace (k : String) (v : JSValue) :
    ∀ m : OmmObject, m.any (fun p => p.1 == k) = true →
      (m.map (fun p => if p.1 == k then (k, v) else p)).find? (fun p => p.1 == k) =
        some (k, v)
  | [], h => by simp at h
  | p :: t, h => by
    by_cases hp : (p.1 == k) = true
    · simp only [List.map_cons, if_pos hp, List.find?_cons, beq_self_eq_true]
    · have ht : t.any (fun p => p.1 == k) = true := by
        simp only [List.any_cons, Bool.or_eq_true] at h
        rcases h with h | h
        · exact absurd h hp
        · exact h
      have hp2 : (p.1 == k) = false := Bool.eq_false_iff.mpr hp
      rw [List.map_cons, if_neg hp, List.find?_cons]
      simp only [hp2]
      exact find_map_replace k v t ht

/-- Appending a fresh binding of `k` makes `k` look up the new value. -/
theorem find_append_new (k : String) (v : JSValue) :
    ∀ m : OmmObject, m.any (fun p => p.1 == k) = false →
      (m ++ [(k, v)]).find? (fun p => p.1 == k) = some (k, v)
  | [], _ => by simp only [List.nil_append, List.find?_cons, beq_self_eq_true]
  | p :: t, h => by
    simp only [List.any_cons, Bool.or_eq_false_iff] at h
    rw [List.cons_append]
    simp only [List.find?_cons, h.1]
    exact find_append_new k v t h.2

/-- After `obj[k] = v`, looking up `k` yields `v`. -/
theorem getField_setKey_self (m : OmmObject) (k : String) (v : JSValue) :
    getField (setKey m k v) k = some v := by
  unfold getField setKey
  split_ifs with h
  · rw [find_map_replace k v m h]
    rfl
  · rw [find_append_new k v m (Bool.eq_false_iff.mpr h)]
    rfl

/-- Replacing the binding of `k2` does not change lookups of `k`. -/
theorem find_map_replace_ne (k k2 : String) (v : JSValue) (hk : (k2 == k) = false) :
    ∀ m : OmmObject,
      (m.map (fun p => if p.1 == k2 then (k2, v) else p)).find? (fun p => p.1 == k) =
        m.find? (fun p => p.1 == k)
  | [] => rfl
  | p :: t => by
    by_cases hp : (p.1 == k2) = true
    · have hpk : (p.1 == k) = false := by
        rw [beq_iff_eq] at hp
        rw [hp]
        exact hk
      simp only [List.map_cons, if_pos hp, List.find?_cons, hk, hpk]
      exact find_map_replace_ne k k2 v hk t
    · simp only [List.map_cons, if_neg hp, List.find?_cons]
      by_cases hpk : (p.1 == k) = true
      · simp only [hpk]
      · simp only [Bool.eq_false_iff.mpr hpk]
        exact find_map_replace_ne k k2 v hk t

/-- Appending a binding of a different key does not change lookups of `k`. -/
theorem find_append_ne (k k2 : String) (v : JSValue) (hk : (k2 == k) = false) :
    ∀ m : OmmObject,
      (m ++ [(k2, v)]).find? (fun p => p.1 == k) = m.find? (fun p => p.1 == k)
  | [] => by simp only [List.nil_append, List.find?_cons, hk]
  | p :: t => by
    rw [List.cons_append]
    simp only [List.find?_cons]
    by_cases hpk : (p.1 == k) = true
    · simp only [hpk]
    · simp only [Bool.eq_false_iff.mpr hpk]
      exact find_append_ne k k2 v hk t

/-- After `obj[k2] = v` with `k2 ≠ k`, lookups of `k` are unchanged. -/
theorem getField_setKey_ne (m : OmmObject) (k k2 : String) (v : JSValue)
    (hk : (k2 == k) = false) :
    getField (setKey m k2 v) k = getField m k := by
  unfold getField setKey
  split_ifs with h
  · rw [find_map_replace_ne k k2 v hk m]
  · rw [find_append_ne k k2 v hk m]

/-- Looking up `k` after running the KVN decoding loop: the last matched
line whose key is `k` wins; when no line mentions `k`, the initial
object's binding for `k` is untouched. -/
theorem kvnFoldl_getField (k : String) :
    ∀ (ls : List String) (m : OmmObject),
      getField (ls.foldl kvnStep m) k =
        match ((ls.filterMap kvnLineMatch).filter (fun p => p.1 == k)).getLast? with
        | some p => some (coerceKVN k p.2)
        | none => getField m k := by
  intro ls
  induction ls using List.reverseRecOn with
  | nil => intro m; rfl
  | append_singleton ls l ih =>
    intro m
    rw [List.foldl_append]
    simp only [List.foldl_cons, List.foldl_nil]
    rcases hl : kvnLineMatch l with _ | ⟨kk, vv⟩
    · rw [show kvnStep (ls.foldl kvnStep m) l = ls.foldl kvnStep m by
            unfold kvnStep; rw [hl]]
      rw [ih m, List.filterMap_append]
      simp [hl]
    · rw [show kvnStep (ls.foldl kvnStep m) l =
            setKey (ls.foldl kvnStep m) kk (coerceKVN kk vv) by
            unfold kvnStep; rw [hl]]
      rw [List.filterMap_append]
      have hfm : List.filterMap kvnLineMatch [l] = [(kk, vv)] := by simp [hl]
      rw [hfm, List.filter_append]
      by_cases hkk : (kk == k) = true
      · have hone : List.filter (fun p => p.1 == k) [(kk, vv)] = [(kk, vv)] := by
          simp [List.filter, hkk]
        rw [hone, List.getLast?_concat]
        rw [beq_iff_eq] at hkk
        subst hkk
        exact getField_setKey_self _ _ _
      · have hkk2 : (kk == k) = false := Bool.eq_false_iff.mpr hkk
        have hnone : List.filter (fun p => p.1 == k) [(kk, vv)] = [] := by
          simp [List.filter, hkk2]
        rw [hnone, List.append_nil, getField_setKey_ne _ _ _ _ hkk2]
        exact ih m

/-- C9: when the KVN text contains several lines with the same key, the
decoded record maps that key to the coerced value of the last matching
line — later occurrences silently overwrite earlier ones, and the
decoder (a total function into records) reports no error for the
duplication. -/
theorem kvn_duplicate_last_wins (s k v : String)
    (hlast : ((kvnEntries s).filter (fun p => p.1 == k)).getLast? = some (k, v)) :
    getField (parseOMMKVN s) k = some (coerceKVN k v) := by
  unfold parseOMMKVN
  rw [kvnFoldl_getField k (splitLines s) []]
  unfold kvnEntries at hlast
  rw [hlast]

/-- Witness for `kvn_duplicate_last_wins` on a two-line duplicate. -/
theorem kvn_duplicate_last_wins_witness :
    getField (parseOMMKVN "MEAN_MOTION = 1\nMEAN_MOTION = 2") "MEAN_MOTION" =
      some (coerceKVN "MEAN_MOTION" "2") :=
  kvn_duplicate_last_wins "MEAN_MOTION = 1\nMEAN_MOTION = 2" "MEAN_MOTION" "2"
    (by decide)

/-- From a paused state with no pending timer, any event that is not a
successful `start()` performs no recompute and leaves the scheduler
paused with no pending timer. -/
theorem schedStep_paused (s : SchedState) (e : SchedEvent)
    (hp : pausedB s = true) (hns : isStartB s e = false) :
    (schedStep s e).2 = false ∧ pausedB (schedStep s e).1 = true := by
  obtain ⟨en, live, armed, fixed⟩ := s
  cases e <;> cases en <;> cases live <;> cases armed <;> cases fixed <;>
    simp_all [schedStep, pausedB, isStartB]

/-- A paused scheduler performs no recompute along any event sequence
containing no successful `start()`. -/
theorem schedRun_paused (evs : List SchedEvent) :
    ∀ s : SchedState, pausedB s = true → noStartB s evs = true →
      (schedRun s evs).2 = 0 := by
  induction evs with
  | nil => intro s _ _; rfl
  | cons e evs ih =>
    intro s hp hn
    simp only [noStartB, Bool.and_eq_true, Bool.not_eq_true'] at hn
    have hstep := schedStep_paused s e hp hn.1
    simp only [schedRun]
    rw [hstep.1, ih (schedStep s e).1 hstep.2 hn.2]
    simp

/-- C8: after a pause (a click on the enabled toggle while
live-updating) the scheduler is paused with its timer cancelled and no
recompute happened; from a paused state no recompute tick occurs along
any event sequence free of a successful `start()`; and while a fixed
custom time is selected a toggle click is refused — it neither arms the
timer nor triggers a recompute, leaving the state unchanged — until the
selector is cleared back to live. -/
theorem scheduler_pause_invariant (s : SchedState) (evs : List SchedEvent) :
    (s.isLiveUpdating = true → s.enabled = true →
       pausedB (schedStep s .toggleClick).1 = true ∧
       (schedStep s .toggleClick).2 = false) ∧
    (pausedB s = true → noStartB s evs = true → (schedRun s evs).2 = 0) ∧
    (s.isLiveUpdating = false → s.fixedTime = true →
       schedStep s .toggleClick = (s, false)) := by
  refine ⟨?_, fun hp hn => schedRun_paused evs s hp hn, ?_⟩
  · intro hl he
    obtain ⟨en, live, armed, fixed⟩ := s
    cases en <;> cases live <;> cases armed <;> cases fixed <;>
      simp_all [schedStep, pausedB]
  · intro hl hf
    obtain ⟨en, live, armed, fixed⟩ := s
    cases en <;> cases live <;> cases armed <;> cases fixed <;>
      simp_all [schedStep]

/-- Witness for `scheduler_pause_invariant`: a pause from a live state,
a start-free run from a paused state, and a refused click under a fixed
time, all at concrete states. -/
theorem scheduler_pause_invariant_witness :
    (pausedB (schedStep ⟨true, true, true, false⟩ .toggleClick).1 = true ∧
     (schedStep ⟨true, true, true, false⟩ .toggleClick).2 = false) ∧
    (schedRun ⟨true, false, false, true⟩
      [.toggleClick, .clearFixed, .tick]).2 = 0 ∧
    schedStep ⟨true, false, false, true⟩ .toggleClick =
      (⟨true, false, false, true⟩, false) := by
  refine ⟨(scheduler_pause_invariant ⟨true, true, true, false⟩ []).1 rfl rfl,
    (scheduler_pause_invariant ⟨true, false, false, true⟩
      [.toggleClick, .clearFixed, .tick]).2.1 (by decide) (by decide),
    (scheduler_pause_invariant ⟨true, false, false, true⟩ []).2.2 rfl rfl⟩

/-- `Math.atan2(y, x)`: the argument of the complex number `x + y·i`,
in `(-π, π]`, with `atan2(0, 0) = 0`. -/
noncomputable def jsAtan2 (y x : ℝ) : ℝ :=
  Complex.arg ((x : ℂ) + (y : ℂ) * Complex.I)

/-- The right ascension reported by `calculateSatellitePosition` for an
inertial position with components `x`, `y`: `atan2(y, x) * 180 / π`,
increased by 360 when negative. -/
noncomputable def rightAscensionDeg (x y : ℝ) : ℝ :=
  if jsAtan2 y x * 180 / Real.pi < 0 then jsAtan2 y x * 180 / Real.pi + 360
  else jsAtan2 y x * 180 / Real.pi

/-- C4: for every inertial vector with `atan2(y, x) < 0` the reported
right ascension equals `atan2(y, x)·180/π + 360`, and for every vector
with `x` or `y` nonzero the reported right ascension lies in `[0, 360)`. -/
theorem rightAscension_normalized (x y : ℝ) :
    (jsAtan2 y x < 0 →
       rightAscensionDeg x y = jsAtan2 y x * 180 / Real.pi + 360) ∧
    ((x ≠ 0 ∨ y ≠ 0) →
       0 ≤ rightAscensionDeg x y ∧ rightAscensionDeg x y < 360) := by
  have hπ : (0 : ℝ) < Real.pi := Real.pi_pos
  have h1 : jsAtan2 y x ≤ Real.pi := Complex.arg_le_pi _
  have h2 : -Real.pi < jsAtan2 y x := Complex.neg_pi_lt_arg _
  have hd1 : jsAtan2 y x * 180 / Real.pi ≤ 180 := by
    rw [div_le_iff₀ hπ]
    linarith
  have hd2 : -180 < jsAtan2 y x * 180 / Real.pi := by
    rw [lt_div_iff₀ hπ]
    linarith
  constructor
  · intro hneg
    have hlt : jsAtan2 y x * 180 / Real.pi < 0 := by
      apply div_neg_of_neg_of_pos _ hπ
      linarith
    unfold rightAscensionDeg
    rw [if_pos hlt]
  · intro _
    unfold rightAscensionDeg
    split_ifs with h
    · constructor <;> linarith
    · constructor
      · linarith [not_lt.mp h]
      · linarith

/-- Witness for `rightAscension_normalized` at the inertial direction
`(x, y) = (0, -1)`, whose `atan2` is `-π/2 < 0`. -/
theorem rightAscension_normalized_witness :
    rightAscensionDeg 0 (-1) = jsAtan2 (-1) 0 * 180 / Real.pi + 360 ∧
    0 ≤ rightAscensionDeg 0 (-1) ∧ rightAscensionDeg 0 (-1) < 360 := by
  have harg : jsAtan2 (-1) 0 = -(Real.pi / 2) := by
    unfold jsAtan2
    have h0 : ((0 : ℝ) : ℂ) + ((-1 : ℝ) : ℂ) * Complex.I = -Complex.I := by
      push_cast
      ring
    rw [h0, Complex.arg_neg_I]
  have hneg : jsAtan2 (-1) 0 < 0 := by
    rw [harg]
    linarith [Real.pi_pos]
  have h := rightAscension_normalized 0 (-1)
  exact ⟨h.1 hneg, h.2 (Or.inr (by norm_num))⟩
